import Mathlib

/-!
# Verification of the portfolio service worker (sw.js)

A shallow embedding of the service-worker caching controller found in the
repository (constants `CACHE_NAME`/`STATIC_CACHE`/`DYNAMIC_CACHE`, the
`install`/`activate`/`fetch` listeners and the three strategy functions
`handleImageRequest`, `handleAssetRequest`, `handlePageRequest`).

Modelling decisions, all derived from the source:

* A `Response` is its status and body; `Response.ok` is the platform's
  `response.ok` (status in the 2xx range).
* `fetch` is an oracle `Net : String → Option Response`; `none` models a
  network-layer rejection (offline, DNS failure), `some r` a resolved
  response, possibly non-OK.
* The cache storage is a list of named partitions in creation order, each a
  list of `(url, response)` entries; `caches.match` walks partitions in
  creation order, `cache.put` replaces the entry for the key in the named
  partition, `caches.open` appends an empty partition when the name is new.
* Each strategy function returns the value its promise resolves with
  (`Option Response`, `none` when the async function returns `undefined`),
  the cache storage after its writes, and the number of `fetch` calls it
  performed.
-/

structure Response where
  status : Nat
  body : String
deriving DecidableEq, Repr

/-- `response.ok`: status in the inclusive range 200–299. -/
def Response.ok (r : Response) : Bool :=
  decide (200 ≤ r.status) && decide (r.status < 300)

structure Request where
  method : String
  url : String
  destination : String
deriving DecidableEq, Repr

/-- The network boundary: `fetch(url)` resolves (`some`) or rejects (`none`). -/
abbrev Net := String → Option Response

/-- One named cache: entries keyed by URL (only GETs ever reach a cache). -/
abbrev CachePartition := List (String × Response)

/-- `caches`: the partitions in creation order. -/
abbrev CacheStore := List (String × CachePartition)

/-- `const STATIC_CACHE = 'static-v1.0.0'` from the source. -/
def STATIC_CACHE : String := "static-v1.0.0"

/-- `const DYNAMIC_CACHE = 'dynamic-v1.0.0'` from the source. -/
def DYNAMIC_CACHE : String := "dynamic-v1.0.0"

/-- `const STATIC_ASSETS = [...]` from the source: five request identities. -/
def STATIC_ASSETS : List String :=
  ["/", "/index.html", "/style.css", "/script.js", "/assets/resume.pdf"]

/-- Look a URL up in one partition (`cache.match`). -/
def partitionMatch (p : CachePartition) (url : String) : Option Response :=
  (p.find? (fun e => e.1 == url)).map (fun e => e.2)

/-- `caches.match(request)`: first hit walking partitions in creation order. -/
def cachesMatch : CacheStore → String → Option Response
  | [], _ => none
  | (_, p) :: rest, url =>
    match partitionMatch p url with
    | some r => some r
    | none => cachesMatch rest url

/-- `caches.open(name)`: creates an empty partition when the name is new. -/
def cachesOpen (cs : CacheStore) (name : String) : CacheStore :=
  if cs.any (fun p => p.1 == name) then cs else cs ++ [(name, [])]

/-- `cache.put(request, response)` on one partition: replace the key's entry. -/
def putEntry (p : CachePartition) (url : String) (r : Response) : CachePartition :=
  p.filter (fun e => !(e.1 == url)) ++ [(url, r)]

/-- `cache.put` applied to the named partition of the store. -/
def cachePut (cs : CacheStore) (name url : String) (r : Response) : CacheStore :=
  cs.map (fun p => if p.1 == name then (p.1, putEntry p.2 url r) else p)

/-- `caches.open(name)` followed by `cache.put(request, response)`. -/
def openPut (cs : CacheStore) (name url : String) (r : Response) : CacheStore :=
  cachePut (cachesOpen cs name) name url r

/-- The names of the partitions (`caches.keys()`). -/
def cacheNames (cs : CacheStore) : List String := cs.map (fun p => p.1)

/-- The DYNAMIC partition's content (empty when not yet created). -/
def dynEntries (cs : CacheStore) : CachePartition :=
  match cs.find? (fun p => p.1 == DYNAMIC_CACHE) with
  | some p => p.2
  | none => []

/-- Lookup restricted to the DYNAMIC partition. -/
def dynMatch (cs : CacheStore) (url : String) : Option Response :=
  partitionMatch (dynEntries cs) url

/-- What one strategy invocation produced: the value its promise resolved
with (`none` = the async function returned `undefined`), the cache storage
after its writes, and how many `fetch` calls it made. -/
structure StrategyOutcome where
  response : Option Response
  store : CacheStore
  netCalls : Nat
deriving DecidableEq, Repr

/-- `handleImageRequest` from the source: cache-first; on miss fetch, cache
the clone when `networkResponse.ok`, return the network response; on fetch
rejection return `new Response('', { status: 404 })`. -/
def handleImageRequest (net : Net) (cs : CacheStore) (req : Request) :
    StrategyOutcome :=
  match cachesMatch cs req.url with
  | some cached => ⟨some cached, cs, 0⟩
  | none =>
    match net req.url with
    | some networkResponse =>
      if networkResponse.ok then
        ⟨some networkResponse, openPut cs DYNAMIC_CACHE req.url networkResponse, 1⟩
      else
        ⟨some networkResponse, cs, 1⟩
    | none => ⟨some ⟨404, ""⟩, cs, 1⟩

/-- `handleAssetRequest` from the source: same body as `handleImageRequest`. -/
def handleAssetRequest (net : Net) (cs : CacheStore) (req : Request) :
    StrategyOutcome :=
  match cachesMatch cs req.url with
  | some cached => ⟨some cached, cs, 0⟩
  | none =>
    match net req.url with
    | some networkResponse =>
      if networkResponse.ok then
        ⟨some networkResponse, openPut cs DYNAMIC_CACHE req.url networkResponse, 1⟩
      else
        ⟨some networkResponse, cs, 1⟩
    | none => ⟨some ⟨404, ""⟩, cs, 1⟩

/-- `handlePageRequest` from the source: network-first; on resolved fetch
cache the clone when OK and return the response; on fetch rejection fall
back to `caches.match(request)`, then — when the destination is `document` —
to `caches.match('/index.html')` WITHOUT a guard (the async function
resolves with `undefined` when the home document is not cached), and only
for non-document destinations to `new Response('Offline', { status: 503 })`. -/
def handlePageRequest (net : Net) (cs : CacheStore) (req : Request) :
    StrategyOutcome :=
  match net req.url with
  | some networkResponse =>
    if networkResponse.ok then
      ⟨some networkResponse, openPut cs DYNAMIC_CACHE req.url networkResponse, 1⟩
    else
      ⟨some networkResponse, cs, 1⟩
  | none =>
    match cachesMatch cs req.url with
    | some cached => ⟨some cached, cs, 1⟩
    | none =>
      if req.destination == "document" then
        ⟨cachesMatch cs "/index.html", cs, 1⟩
      else
        ⟨some ⟨503, "Offline"⟩, cs, 1⟩

inductive RequestClass where
  | Image : RequestClass
  | Asset : RequestClass
  | Page : RequestClass
deriving DecidableEq, Repr

/-- Substring containment on character lists: `pat` occurs as a prefix of
some suffix of the second argument. -/
def listContains (pat : List Char) : List Char → Bool
  | [] => pat.isEmpty
  | c :: rest => pat.isPrefixOf (c :: rest) || listContains pat rest

/-- `request.url.includes('/assets/')` from the fetch listener. -/
def urlIncludesAssets (url : String) : Bool :=
  listContains "/assets/".data url.data

/-- The fetch listener's classification of a GET request: destination
`image` first, then the `/assets/` URL test, else page. -/
def classify (req : Request) : RequestClass :=
  if req.destination == "image" then .Image
  else if urlIncludesAssets req.url then .Asset
  else .Page

/-- What the fetch listener did with one event: whether `respondWith` was
called, the response value the supplied promise resolved with (`none` both
when not intercepted and when the handler resolved with `undefined`), the
cache storage afterwards, and the number of `fetch` calls the controller
made. -/
structure FetchResult where
  intercepted : Bool
  response : Option Response
  store : CacheStore
  netCalls : Nat
deriving DecidableEq, Repr

/-- The `fetch` listener from the source: non-GET requests return before
`respondWith`; GET requests are dispatched on `classify`. -/
def onFetch (net : Net) (cs : CacheStore) (req : Request) : FetchResult :=
  if req.method == "GET" then
    match classify req with
    | .Image =>
      let o := handleImageRequest net cs req
      ⟨true, o.response, o.store, o.netCalls⟩
    | .Asset =>
      let o := handleAssetRequest net cs req
      ⟨true, o.response, o.store, o.netCalls⟩
    | .Page =>
      let o := handlePageRequest net cs req
      ⟨true, o.response, o.store, o.netCalls⟩
  else
    ⟨false, none, cs, 0⟩

/-- `cache.addAll(urls)` fetches every URL; it rejects (`none`) as soon as
one fetch rejects or resolves non-OK, and only on full success performs the
batch of puts — no partial write is observable. -/
def fetchAll (net : Net) : List String → Option (List (String × Response))
  | [] => some []
  | url :: rest =>
    match net url with
    | some r =>
      if r.ok then (fetchAll net rest).map (fun es => (url, r) :: es) else none
    | none => none

/-- Write a list of fetched entries into the named partition in order. -/
def putAll (cs : CacheStore) (name : String) :
    List (String × Response) → CacheStore
  | [] => cs
  | (url, r) :: rest => putAll (cachePut cs name url r) name rest

/-- The `install` listener from the source: `caches.open(STATIC_CACHE)`,
then `cache.addAll(STATIC_ASSETS)`, then `self.skipWaiting()`. The Bool is
whether the install attempt succeeded (reached `skipWaiting`, so activation
of this version can follow); on failure the event's `waitUntil` promise
rejects, the STATIC partition exists but holds nothing. -/
def onInstall (net : Net) (cs : CacheStore) : Bool × CacheStore :=
  let cs1 := cachesOpen cs STATIC_CACHE
  match fetchAll net STATIC_ASSETS with
  | some entries => (true, putAll cs1 STATIC_CACHE entries)
  | none => (false, cs1)

/-- The `activate` listener's cache sweep, generalised over the two current
version tokens: every partition whose name is neither token is deleted
(`caches.keys()` / `caches.delete`). `clients.claim()` does not touch the
store. -/
def activateKeep (staticName dynamicName : String) (cs : CacheStore) :
    CacheStore :=
  cs.filter (fun p => p.1 == staticName || p.1 == dynamicName)

/-- The `activate` listener from the source, at the source's tokens. -/
def onActivate (cs : CacheStore) : CacheStore :=
  activateKeep STATIC_CACHE DYNAMIC_CACHE cs

/-- The STATIC partition's content (empty when not yet created). -/
def staticEntries (cs : CacheStore) : CachePartition :=
  match cs.find? (fun p => p.1 == STATIC_CACHE) with
  | some p => p.2
  | none => []

/-! Concrete scenario data used by counterexamples and witnesses. -/

/-- A network where every URL resolves with a 200 response. -/
def netInstallOk : Net := fun _ => some ⟨200, "asset"⟩

/-- A fully offline network: every fetch rejects. -/
def netDown : Net := fun _ => none

/-- A store holding only the STATIC partition with a cached home document. -/
def csHome : CacheStore := [(STATIC_CACHE, [("/index.html", ⟨200, "HOME"⟩)])]

/-- An offline document navigation to an uncached URL under `/assets/`. -/
def pdfNavReq : Request := ⟨"GET", "/assets/new.pdf", "document"⟩

/-- A document navigation to the home document itself. -/
def homeReq : Request := ⟨"GET", "/index.html", "document"⟩

/-- A fresher home document than the one installed into STATIC. -/
def freshHome : Response := ⟨200, "FRESH HOME"⟩

/-- The store after a successful network-first fetch of the home document
on top of `csHome`: STATIC still holds the old copy, DYNAMIC the fresh one. -/
def csStored : CacheStore := (onFetch (fun _ => some freshHome) csHome homeReq).store

/-- An offline document navigation to a URL cached nowhere. -/
def aboutReq : Request := ⟨"GET", "/about", "document"⟩

/-- A GET request with image destination. -/
def imgReq : Request := ⟨"GET", "/photo.png", "image"⟩

/-- A non-GET request. -/
def postReq : Request := ⟨"POST", "/contact", ""⟩

/-- Partition names present before the v2 activation scenario. -/
def csV1V2 : CacheStore :=
  [("static-v1", []), ("dynamic-v1", []), ("static-v2", []), ("dynamic-v2", [])]

/-- A network where every URL resolves with an HTTP 500 error response. -/
def net500 : Net := fun _ => some ⟨500, "ERR"⟩

/-- A store whose DYNAMIC partition caches the image URL. -/
def csImg : CacheStore := [(DYNAMIC_CACHE, [("/photo.png", ⟨200, "img"⟩)])]

/-- A cached copy of the `/about` page. -/
def cachedAbout : Response := ⟨200, "cached about"⟩

/-- A store whose DYNAMIC partition caches the `/about` page. -/
def csAbout : CacheStore := [(DYNAMIC_CACHE, [("/about", cachedAbout)])]

/-! Helper lemmas about the cache-store operations. -/

theorem partitionMatch_putEntry_self (p : CachePartition) (u : String) (r : Response) :
    partitionMatch (putEntry p u r) u = some r := by
  induction p with
  | nil => simp [putEntry, partitionMatch]
  | cons e rest ih =>
    cases h : (e.1 == u) with
    | true =>
      have he : putEntry (e :: rest) u r = putEntry rest u r := by
        simp [putEntry, List.filter_cons, h]
      rw [he]; exact ih
    | false =>
      have he : putEntry (e :: rest) u r = e :: putEntry rest u r := by
        simp [putEntry, List.filter_cons, h]
      rw [he]
      unfold partitionMatch at ih ⊢
      rw [List.find?_cons_of_neg _ (by simp [h])]
      exact ih

theorem putEntry_idem (p : CachePartition) (u : String) (r : Response) :
    putEntry (putEntry p u r) u r = putEntry p u r := by
  unfold putEntry
  rw [List.filter_append, List.filter_filter]
  simp

theorem find_cons_of_pos {α : Type} (q : α → Bool) (a : α) (l : List α)
    (h : q a = true) : (a :: l).find? q = some a :=
  List.find?_cons_of_pos l h

theorem find_cons_of_neg {α : Type} (q : α → Bool) (a : α) (l : List α)
    (h : q a = false) : (a :: l).find? q = l.find? q :=
  List.find?_cons_of_neg l (by simp [h])

theorem cachePut_cons (p : String × CachePartition) (rest : CacheStore)
    (n u : String) (r : Response) :
    cachePut (p :: rest) n u r =
      (if (p.1 == n) = true then (p.1, putEntry p.2 u r) else p) ::
        cachePut rest n u r := by
  simp only [cachePut, List.map_cons]

theorem cacheNames_cachePut (cs : CacheStore) (n u : String) (r : Response) :
    cacheNames (cachePut cs n u r) = cacheNames cs := by
  induction cs with
  | nil => rfl
  | cons p rest ih =>
    rw [cachePut_cons]
    simp only [cacheNames, List.map_cons] at ih ⊢
    rw [ih]
    by_cases h : (p.1 == n) = true <;> simp [h]

theorem any_cachePut (cs : CacheStore) (n m u : String) (r : Response) :
    (cachePut cs n u r).any (fun p => p.1 == m) = cs.any (fun p => p.1 == m) := by
  induction cs with
  | nil => rfl
  | cons p rest ih =>
    rw [cachePut_cons]
    simp only [List.any_cons]
    rw [ih]
    by_cases h : (p.1 == n) = true <;> simp [h]

theorem any_cachesOpen_self (cs : CacheStore) (n : String) :
    (cachesOpen cs n).any (fun p => p.1 == n) = true := by
  unfold cachesOpen
  by_cases h : cs.any (fun p => p.1 == n) = true <;> simp [h, List.any_append]

theorem cachesOpen_of_any (cs : CacheStore) (n : String)
    (h : cs.any (fun p => p.1 == n) = true) : cachesOpen cs n = cs := by
  unfold cachesOpen
  rw [if_pos h]

theorem cachePut_cachePut (cs : CacheStore) (n u : String) (r : Response) :
    cachePut (cachePut cs n u r) n u r = cachePut cs n u r := by
  induction cs with
  | nil => rfl
  | cons p rest ih =>
    rw [cachePut_cons, cachePut_cons, ih]
    by_cases h : (p.1 == n) = true <;> simp [h, putEntry_idem]

theorem openPut_idem (cs : CacheStore) (n u : String) (r : Response) :
    openPut (openPut cs n u r) n u r = openPut cs n u r := by
  unfold openPut
  rw [cachesOpen_of_any _ _ (by rw [any_cachePut]; exact any_cachesOpen_self cs n)]
  exact cachePut_cachePut _ _ _ _

theorem find_cachePut (cs : CacheStore) (n u : String) (r : Response) :
    (cachePut cs n u r).find? (fun p => p.1 == n) =
      (cs.find? (fun p => p.1 == n)).map (fun p => (p.1, putEntry p.2 u r)) := by
  induction cs with
  | nil => rfl
  | cons p rest ih =>
    rw [cachePut_cons]
    by_cases h : (p.1 == n) = true
    · rw [if_pos h,
        find_cons_of_pos (fun p => p.1 == n) (p.1, putEntry p.2 u r) _ h,
        find_cons_of_pos (fun p => p.1 == n) p _ h]
      rfl
    · rw [if_neg h,
        find_cons_of_neg (fun p => p.1 == n) p _ (by simpa using h),
        find_cons_of_neg (fun p => p.1 == n) p _ (by simpa using h)]
      exact ih

theorem dynEntries_openPut (cs : CacheStore) (u : String) (r : Response) :
    dynEntries (openPut cs DYNAMIC_CACHE u r) = putEntry (dynEntries cs) u r := by
  unfold openPut cachesOpen
  by_cases h : cs.any (fun p => p.1 == DYNAMIC_CACHE) = true
  · rw [if_pos h]
    unfold dynEntries
    rw [find_cachePut]
    cases hf : cs.find? (fun p => p.1 == DYNAMIC_CACHE) with
    | none =>
      rcases List.any_eq_true.mp h with ⟨x, hx, hpx⟩
      exact absurd hpx (List.find?_eq_none.mp hf x hx)
    | some p => simp
  · rw [if_neg h]
    unfold dynEntries
    rw [find_cachePut, List.find?_append]
    have hnone : cs.find? (fun p => p.1 == DYNAMIC_CACHE) = none := by
      rw [List.find?_eq_none]
      intro x hx hpx
      exact h (List.any_eq_true.mpr ⟨x, hx, hpx⟩)
    rw [hnone]
    simp

theorem dynMatch_openPut_self (cs : CacheStore) (u : String) (r : Response) :
    dynMatch (openPut cs DYNAMIC_CACHE u r) u = some r := by
  unfold dynMatch
  rw [dynEntries_openPut]
  exact partitionMatch_putEntry_self _ _ _

theorem handleAssetRequest_eq_image :
    handleAssetRequest = handleImageRequest := rfl

theorem handleImageRequest_response_isSome (net : Net) (cs : CacheStore)
    (req : Request) : (handleImageRequest net cs req).response.isSome = true := by
  unfold handleImageRequest
  cases hcm : cachesMatch cs req.url with
  | some c => simp
  | none =>
    cases hn : net req.url with
    | some r => cases hok : r.ok <;> simp [hok]
    | none => simp

theorem handlePageRequest_response_none_iff (net : Net) (cs : CacheStore)
    (req : Request) :
    (handlePageRequest net cs req).response = none ↔
      (net req.url = none ∧ cachesMatch cs req.url = none ∧
       req.destination = "document" ∧ cachesMatch cs "/index.html" = none) := by
  unfold handlePageRequest
  cases hn : net req.url with
  | some r => cases hok : r.ok <;> simp [hok]
  | none =>
    cases hcm : cachesMatch cs req.url with
    | some c => simp
    | none =>
      cases hd : (req.destination == "document") with
      | true =>
        have hd2 : req.destination = "document" := by simpa using hd
        simp [hd, hd2]
      | false =>
        have hd2 : req.destination ≠ "document" := by simpa using hd
        simp [hd, hd2]

theorem handleImageRequest_dyn (net : Net) (cs : CacheStore) (req : Request) :
    ((handleImageRequest net cs req).netCalls = 0 →
      (handleImageRequest net cs req).store = cs) ∧
    (net req.url = none → (handleImageRequest net cs req).store = cs) ∧
    (∀ r, net req.url = some r → r.ok = false →
      (handleImageRequest net cs req).store = cs) ∧
    (∀ r, net req.url = some r → r.ok = true →
      (handleImageRequest net cs req).netCalls = 1 →
      (handleImageRequest net cs req).store = openPut cs DYNAMIC_CACHE req.url r) := by
  unfold handleImageRequest
  cases hcm : cachesMatch cs req.url with
  | some c => simp
  | none =>
    cases hn : net req.url with
    | some r0 =>
      cases hok : r0.ok with
      | true =>
        refine ⟨by simp [hok], by simp, ?_, ?_⟩
        · intro r hr hokf
          rw [Option.some.injEq] at hr
          subst hr
          rw [hok] at hokf
          exact Bool.noConfusion hokf
        · intro r hr _ _
          rw [Option.some.injEq] at hr
          subst hr
          simp [hok]
      | false => simp [hok]
    | none => simp

theorem handlePageRequest_dyn (net : Net) (cs : CacheStore) (req : Request) :
    ((handlePageRequest net cs req).netCalls = 0 →
      (handlePageRequest net cs req).store = cs) ∧
    (net req.url = none → (handlePageRequest net cs req).store = cs) ∧
    (∀ r, net req.url = some r → r.ok = false →
      (handlePageRequest net cs req).store = cs) ∧
    (∀ r, net req.url = some r → r.ok = true →
      (handlePageRequest net cs req).netCalls = 1 →
      (handlePageRequest net cs req).store = openPut cs DYNAMIC_CACHE req.url r) := by
  unfold handlePageRequest
  cases hn : net req.url with
  | some r0 =>
    cases hok : r0.ok with
    | true =>
      refine ⟨by simp [hok], by simp, ?_, ?_⟩
      · intro r hr hokf
        rw [Option.some.injEq] at hr
        subst hr
        rw [hok] at hokf
        exact Bool.noConfusion hokf
      · intro r hr _ _
        rw [Option.some.injEq] at hr
        subst hr
        simp [hok]
    | false => simp [hok]
  | none =>
    cases hcm : cachesMatch cs req.url with
    | some c => simp
    | none =>
      cases hd : (req.destination == "document") with
      | true => simp [hd]
      | false => simp [hd]

theorem cachesMatch_cachePut_self (cs : CacheStore) (u : String) (r : Response)
    (h : ∀ p ∈ cs, p.1 ≠ DYNAMIC_CACHE → partitionMatch p.2 u = none)
    (hD : cs.any (fun p => p.1 == DYNAMIC_CACHE) = true) :
    cachesMatch (cachePut cs DYNAMIC_CACHE u r) u = some r := by
  induction cs with
  | nil => cases hD
  | cons q rest ih =>
    obtain ⟨a, b⟩ := q
    rw [cachePut_cons]
    cases hp : (a == DYNAMIC_CACHE) with
    | true =>
      rw [if_pos (by simp [hp])]
      unfold cachesMatch
      rw [partitionMatch_putEntry_self]
    | false =>
      rw [if_neg (by simp [hp])]
      have hne : a ≠ DYNAMIC_CACHE := by simpa using hp
      have hpm : partitionMatch b u = none :=
        h (a, b) (List.mem_cons_self _ _) hne
      unfold cachesMatch
      rw [hpm]
      refine ih (fun p hp2 => h p (List.mem_cons_of_mem _ hp2)) ?_
      rw [List.any_cons] at hD
      simpa [hp] using hD

theorem cachesMatch_openPut_self (cs : CacheStore) (u : String) (r : Response)
    (h : ∀ p ∈ cs, p.1 ≠ DYNAMIC_CACHE → partitionMatch p.2 u = none) :
    cachesMatch (openPut cs DYNAMIC_CACHE u r) u = some r := by
  unfold openPut cachesOpen
  by_cases hD : cs.any (fun p => p.1 == DYNAMIC_CACHE) = true
  · rw [if_pos hD]
    exact cachesMatch_cachePut_self cs u r h hD
  · rw [if_neg hD]
    apply cachesMatch_cachePut_self
    · intro p hp hne
      rcases List.mem_append.mp hp with h1 | h1
      · exact h p h1 hne
      · have h2 : p = (DYNAMIC_CACHE, ([] : CachePartition)) := by simpa using h1
        rw [h2] at hne
        exact absurd rfl hne
    · simp [List.any_append]

theorem fetchAll_eq_none (net : Net) (l : List String) (u : String) (hu : u ∈ l)
    (hbad : ∀ r, net u = some r → r.ok = false) : fetchAll net l = none := by
  induction l with
  | nil => cases hu
  | cons v rest ih =>
    unfold fetchAll
    rcases List.mem_cons.mp hu with rfl | hmem
    · cases hn : net u with
      | none => rfl
      | some r => simp [hbad r hn]
    · cases hn : net v with
      | none => rfl
      | some r =>
        cases hok : r.ok with
        | false => simp [hok]
        | true => simp [hok, ih hmem]

/-! Claim theorems. -/

/-- C1 (counterexample): an offline GET document navigation with an empty
cache storage resolves with no response at all — not with the synthetic
503 offline response the claim promises. The calling page observes a
failed request. -/
theorem offline_nav_no_home_counterexample :
    aboutReq.method = "GET" ∧
    (onFetch netDown [] aboutReq).response = none ∧
    (onFetch netDown [] aboutReq).response ≠ some ⟨503, "Offline"⟩ := by
  decide

/-- C1 (amended): for every GET request the fetch handler resolves with a
real, cached, or synthetic response in every case except exactly one — a
document-destination request not under `/assets/` whose network fetch
fails, with no cached entry for its identity and no cached home document —
in which case the handler resolves with no response (`undefined`), which
the calling page observes as a failed request rather than a 503. -/
theorem onFetch_get_response_none_iff :
    ∀ (net : Net) (cs : CacheStore) (req : Request),
      req.method = "GET" →
      ((onFetch net cs req).response = none ↔
        (req.destination = "document" ∧ urlIncludesAssets req.url = false ∧
         net req.url = none ∧ cachesMatch cs req.url = none ∧
         cachesMatch cs "/index.html" = none)) := by
  intro net cs req hm
  have hb : (req.method == "GET") = true := by simp [hm]
  cases hi : (req.destination == "image") with
  | true =>
    have hid : req.destination = "image" := by simpa using hi
    have hcl : classify req = .Image := by simp [classify, hi]
    have hs := handleImageRequest_response_isSome net cs req
    have ho : (onFetch net cs req).response = (handleImageRequest net cs req).response := by
      simp [onFetch, hb, hcl]
    constructor
    · intro hnone
      rw [← ho, hnone] at hs
      simp at hs
    · rintro ⟨hdoc, -⟩
      rw [hid] at hdoc
      exact absurd hdoc (by decide)
  | false =>
    cases ha : urlIncludesAssets req.url with
    | true =>
      have hcl : classify req = .Asset := by simp [classify, hi, ha]
      have hs : (handleAssetRequest net cs req).response.isSome = true := by
        rw [handleAssetRequest_eq_image]
        exact handleImageRequest_response_isSome net cs req
      have ho : (onFetch net cs req).response = (handleAssetRequest net cs req).response := by
        simp [onFetch, hb, hcl]
      constructor
      · intro hnone
        rw [← ho, hnone] at hs
        simp at hs
      · rintro ⟨-, hfa, -⟩
        exact Bool.noConfusion hfa
    | false =>
      have hcl : classify req = .Page := by simp [classify, hi, ha]
      have ho : (onFetch net cs req).response = (handlePageRequest net cs req).response := by
        simp [onFetch, hb, hcl]
      rw [ho, handlePageRequest_response_none_iff]
      constructor
      · rintro ⟨h1, h2, h3, h4⟩
        exact ⟨h3, rfl, h1, h2, h4⟩
      · rintro ⟨h3, -, h1, h2, h4⟩
        exact ⟨h1, h2, h3, h4⟩

/-- C1 (witness): the characterization applied to the offline navigation
with empty cache storage. -/
theorem onFetch_get_response_none_iff_witness :
    (onFetch netDown [] aboutReq).response = none :=
  (onFetch_get_response_none_iff netDown [] aboutReq rfl).mpr
    ⟨rfl, by decide, rfl, rfl, rfl⟩

/-- C2 (counterexample): a fully successful install populates the STATIC
partition with five request identities, not four: the root path `/` and
the home document `/index.html` are distinct identities and both are in
`STATIC_ASSETS`. -/
theorem onInstall_counterexample_five_not_four :
    (staticEntries (onInstall netInstallOk []).2).map (fun e => e.1) = STATIC_ASSETS ∧
    STATIC_ASSETS.length = 5 ∧ ¬STATIC_ASSETS.length = 4 := by
  decide

/-- C2 (amended): `onInstall` populates the STATIC partition with exactly
the five listed static resource identities, and if any one of them fails
to fetch (rejection or non-OK status) the install fails as a unit: the
STATIC partition is left empty — never a partial set — and the attempt
never signals success, so activation of this version does not follow. -/
theorem onInstall_five_assets_atomic :
    (∀ net : Net, (∀ u ∈ STATIC_ASSETS, ∃ r, net u = some r ∧ r.ok = true) →
      (onInstall net []).1 = true ∧
      (staticEntries (onInstall net []).2).map (fun e => e.1) = STATIC_ASSETS) ∧
    (∀ (net : Net) (u : String), u ∈ STATIC_ASSETS →
      (∀ r, net u = some r → r.ok = false) →
      (onInstall net []).1 = false ∧ staticEntries (onInstall net []).2 = []) := by
  constructor
  · intro net h
    obtain ⟨r0, h0, k0⟩ := h "/" (by simp [STATIC_ASSETS])
    obtain ⟨r1, h1, k1⟩ := h "/index.html" (by simp [STATIC_ASSETS])
    obtain ⟨r2, h2, k2⟩ := h "/style.css" (by simp [STATIC_ASSETS])
    obtain ⟨r3, h3, k3⟩ := h "/script.js" (by simp [STATIC_ASSETS])
    obtain ⟨r4, h4, k4⟩ := h "/assets/resume.pdf" (by simp [STATIC_ASSETS])
    have hfa : fetchAll net STATIC_ASSETS =
        some [("/", r0), ("/index.html", r1), ("/style.css", r2),
              ("/script.js", r3), ("/assets/resume.pdf", r4)] := by
      simp [STATIC_ASSETS, fetchAll, h0, h1, h2, h3, h4, k0, k1, k2, k3, k4]
    unfold onInstall
    rw [hfa]
    refine ⟨rfl, ?_⟩
    simp +decide [putAll, cachesOpen, cachePut, putEntry, staticEntries,
      STATIC_CACHE, STATIC_ASSETS]
  · intro net u hu hbad
    have hfa : fetchAll net STATIC_ASSETS = none := fetchAll_eq_none net _ u hu hbad
    unfold onInstall
    rw [hfa]
    exact ⟨rfl, by simp +decide [cachesOpen, staticEntries, STATIC_CACHE]⟩

/-- C2 (witness): the amended install theorem applied to a fully
successful network and to a fully offline network. -/
theorem onInstall_five_assets_atomic_witness :
    (onInstall netInstallOk []).1 = true ∧ (onInstall netDown []).1 = false :=
  ⟨(onInstall_five_assets_atomic.1 netInstallOk
      (fun u _ => ⟨⟨200, "asset"⟩, rfl, rfl⟩)).1,
   (onInstall_five_assets_atomic.2 netDown "/" (by decide)
      (fun r hr => Option.noConfusion hr)).1⟩

/-- C3: `onActivate` deletes every partition whose name is neither the
current STATIC version token nor the current DYNAMIC version token
(`activateKeep` is the activate sweep generalised over the two current
tokens, and `onActivate` is its instance at the source's tokens); in the
superseding deployment scenario whose tokens are `static-v2`/`dynamic-v2`,
the surviving partition names over a store holding both v1 and v2
partitions are exactly the v2 names, and no v1 name is present. -/
theorem onActivate_keeps_only_current_versions :
    (∀ cs n, n ∈ cacheNames (onActivate cs) ↔
      n ∈ cacheNames cs ∧ (n = STATIC_CACHE ∨ n = DYNAMIC_CACHE)) ∧
    (∀ s d (cs : CacheStore) n, n ∈ cacheNames (activateKeep s d cs) ↔
      n ∈ cacheNames cs ∧ (n = s ∨ n = d)) ∧
    cacheNames (activateKeep "static-v2" "dynamic-v2" csV1V2) =
      ["static-v2", "dynamic-v2"] := by
  have hgen : ∀ s d (cs : CacheStore) n, n ∈ cacheNames (activateKeep s d cs) ↔
      n ∈ cacheNames cs ∧ (n = s ∨ n = d) := by
    intro s d cs n
    simp only [activateKeep, cacheNames, List.mem_map, List.mem_filter]
    constructor
    · rintro ⟨p, ⟨hp, hq⟩, rfl⟩
      simp only [Bool.or_eq_true, beq_iff_eq] at hq
      exact ⟨⟨p, hp, rfl⟩, hq⟩
    · rintro ⟨⟨p, hp, rfl⟩, h⟩
      refine ⟨p, ⟨hp, ?_⟩, rfl⟩
      rcases h with h | h <;> simp [h]
  exact ⟨fun cs n => hgen _ _ cs n, hgen, by decide⟩

/-- C4: the fetch listener routes deterministically: a non-GET request is
never intercepted, never classified, never cached — the store is untouched
and no controller fetch happens; a GET request is intercepted and
classified into exactly one of Image (declared destination is an image),
Asset (URL matches the designated static-assets test `/assets/`), or Page
(everything else), and dispatched to the corresponding strategy. -/
theorem onFetch_routing_deterministic :
    ∀ (net : Net) (cs : CacheStore) (req : Request),
      (req.method ≠ "GET" → onFetch net cs req = ⟨false, none, cs, 0⟩) ∧
      (req.method = "GET" →
        (onFetch net cs req).intercepted = true ∧
        (classify req = .Image ↔ req.destination = "image") ∧
        (classify req = .Asset ↔
          req.destination ≠ "image" ∧ urlIncludesAssets req.url = true) ∧
        (classify req = .Page ↔
          req.destination ≠ "image" ∧ urlIncludesAssets req.url = false) ∧
        (classify req = .Image → onFetch net cs req =
          ⟨true, (handleImageRequest net cs req).response,
            (handleImageRequest net cs req).store,
            (handleImageRequest net cs req).netCalls⟩) ∧
        (classify req = .Asset → onFetch net cs req =
          ⟨true, (handleAssetRequest net cs req).response,
            (handleAssetRequest net cs req).store,
            (handleAssetRequest net cs req).netCalls⟩) ∧
        (classify req = .Page → onFetch net cs req =
          ⟨true, (handlePageRequest net cs req).response,
            (handlePageRequest net cs req).store,
            (handlePageRequest net cs req).netCalls⟩)) := by
  intro net cs req
  constructor
  · intro h
    have hb : (req.method == "GET") = false := by simp [h]
    simp [onFetch, hb]
  · intro h
    have hb : (req.method == "GET") = true := by simp [h]
    refine ⟨?_, ?_, ?_, ?_, ?_, ?_, ?_⟩
    · cases hcl : classify req <;> simp [onFetch, hb, hcl]
    · unfold classify
      cases hi : (req.destination == "image") with
      | true =>
        have hid : req.destination = "image" := by simpa using hi
        simp [hi, hid]
      | false =>
        have hid : req.destination ≠ "image" := by simpa using hi
        cases ha : urlIncludesAssets req.url with
        | true => simp [hi, ha, hid]
        | false => simp [hi, ha, hid]
    · unfold classify
      cases hi : (req.destination == "image") with
      | true =>
        have hid : req.destination = "image" := by simpa using hi
        simp [hi, hid]
      | false =>
        have hid : req.destination ≠ "image" := by simpa using hi
        cases ha : urlIncludesAssets req.url with
        | true => simp [hi, ha, hid]
        | false => simp [hi, ha, hid]
    · unfold classify
      cases hi : (req.destination == "image") with
      | true =>
        have hid : req.destination = "image" := by simpa using hi
        simp [hi, hid]
      | false =>
        have hid : req.destination ≠ "image" := by simpa using hi
        cases ha : urlIncludesAssets req.url with
        | true => simp [hi, ha, hid]
        | false => simp [hi, ha, hid]
    · intro hcl
      simp [onFetch, hb, hcl]
    · intro hcl
      simp [onFetch, hb, hcl]
    · intro hcl
      simp [onFetch, hb, hcl]

/-- C4 (witness): a POST request passes through untouched; a GET image
request is intercepted. -/
theorem onFetch_routing_deterministic_witness :
    onFetch netDown [] postReq = ⟨false, none, [], 0⟩ ∧
    (onFetch netDown [] imgReq).intercepted = true :=
  ⟨(onFetch_routing_deterministic netDown [] postReq).1 (by decide),
   ((onFetch_routing_deterministic netDown [] imgReq).2 rfl).1⟩

/-- C5: for every GET request classified Image or Asset whose identity is
cached in any partition, `onFetch` returns that cached response, performs
zero network calls, and leaves the cache storage unchanged. -/
theorem cacheFirst_hit_zero_network_calls :
    ∀ (net : Net) (cs : CacheStore) (req : Request) (r : Response),
      req.method = "GET" →
      (classify req = .Image ∨ classify req = .Asset) →
      cachesMatch cs req.url = some r →
      onFetch net cs req = ⟨true, some r, cs, 0⟩ := by
  intro net cs req r hm hcls hmatch
  have hb : (req.method == "GET") = true := by simp [hm]
  rcases hcls with hc | hc <;>
    simp [onFetch, hb, hc, handleImageRequest, handleAssetRequest, hmatch]

/-- C5 (witness): a cached image is served from DYNAMIC with zero network
calls even when the network is down. -/
theorem cacheFirst_hit_zero_network_calls_witness :
    onFetch netDown csImg imgReq = ⟨true, some ⟨200, "img"⟩, csImg, 0⟩ :=
  cacheFirst_hit_zero_network_calls netDown csImg imgReq ⟨200, "img"⟩ rfl
    (Or.inl (by decide)) (by decide)

/-- C6: for every GET request served by any strategy, an entry for the
request identity is written into DYNAMIC exactly when a network fetch was
performed and resolved with an OK (2xx) response — and the stored entry is
that network response itself (same body); when no fetch happened the store
is untouched, and when the fetch rejected or resolved non-OK the DYNAMIC
partition is unchanged, so failed or non-OK responses are never cached. -/
theorem dynamic_cache_write_iff_ok_fetch :
    ∀ (net : Net) (cs : CacheStore) (req : Request),
      req.method = "GET" →
      (((onFetch net cs req).netCalls = 0 → (onFetch net cs req).store = cs) ∧
       (net req.url = none →
         dynEntries (onFetch net cs req).store = dynEntries cs) ∧
       (∀ r, net req.url = some r → r.ok = false →
         dynEntries (onFetch net cs req).store = dynEntries cs) ∧
       (∀ r, net req.url = some r → r.ok = true →
         (onFetch net cs req).netCalls = 1 →
         dynMatch (onFetch net cs req).store req.url = some r)) := by
  intro net cs req hm
  have hb : (req.method == "GET") = true := by simp [hm]
  cases hcl : classify req with
  | Image =>
    have ho : onFetch net cs req = ⟨true, (handleImageRequest net cs req).response,
        (handleImageRequest net cs req).store, (handleImageRequest net cs req).netCalls⟩ := by
      simp [onFetch, hb, hcl]
    obtain ⟨p1, p2, p3, p4⟩ := handleImageRequest_dyn net cs req
    rw [ho]
    exact ⟨fun h => p1 h, fun h => by rw [p2 h],
      fun r hr hok => by rw [p3 r hr hok],
      fun r hr hok hc => by
        rw [p4 r hr hok hc]; exact dynMatch_openPut_self cs req.url r⟩
  | Asset =>
    have ho : onFetch net cs req = ⟨true, (handleImageRequest net cs req).response,
        (handleImageRequest net cs req).store, (handleImageRequest net cs req).netCalls⟩ := by
      simp [onFetch, hb, hcl, handleAssetRequest_eq_image]
    obtain ⟨p1, p2, p3, p4⟩ := handleImageRequest_dyn net cs req
    rw [ho]
    exact ⟨fun h => p1 h, fun h => by rw [p2 h],
      fun r hr hok => by rw [p3 r hr hok],
      fun r hr hok hc => by
        rw [p4 r hr hok hc]; exact dynMatch_openPut_self cs req.url r⟩
  | Page =>
    have ho : onFetch net cs req = ⟨true, (handlePageRequest net cs req).response,
        (handlePageRequest net cs req).store, (handlePageRequest net cs req).netCalls⟩ := by
      simp [onFetch, hb, hcl]
    obtain ⟨p1, p2, p3, p4⟩ := handlePageRequest_dyn net cs req
    rw [ho]
    exact ⟨fun h => p1 h, fun h => by rw [p2 h],
      fun r hr hok => by rw [p3 r hr hok],
      fun r hr hok hc => by
        rw [p4 r hr hok hc]; exact dynMatch_openPut_self cs req.url r⟩

/-- C6 (witness): an uncached image fetched over a working network ends up
in DYNAMIC with the network response. -/
theorem dynamic_cache_write_iff_ok_fetch_witness :
    dynMatch (onFetch netInstallOk [] imgReq).store imgReq.url =
      some ⟨200, "asset"⟩ :=
  (dynamic_cache_write_iff_ok_fetch netInstallOk [] imgReq rfl).2.2.2
    ⟨200, "asset"⟩ rfl (by decide) (by decide)

/-- C7: for every GET request classified Page whose network call resolves
OK, `onFetch` returns exactly the network response and writes it into
DYNAMIC under the request identity; the operation is idempotent — running
the identical request again against the same stable network leaves the
cache storage unchanged after the second call. -/
theorem page_success_matches_network_idempotent :
    ∀ (net : Net) (cs : CacheStore) (req : Request) (r : Response),
      req.method = "GET" → classify req = .Page →
      net req.url = some r → r.ok = true →
      ((onFetch net cs req).response = some r ∧
       dynMatch (onFetch net cs req).store req.url = some r ∧
       (onFetch net (onFetch net cs req).store req).store =
         (onFetch net cs req).store) := by
  intro net cs req r hm hcl hn hok
  have hb : (req.method == "GET") = true := by simp [hm]
  have hpage : ∀ cs0 : CacheStore, handlePageRequest net cs0 req =
      ⟨some r, openPut cs0 DYNAMIC_CACHE req.url r, 1⟩ := by
    intro cs0
    unfold handlePageRequest
    rw [hn]
    simp [hok]
  have ho : ∀ cs0 : CacheStore, onFetch net cs0 req =
      ⟨true, some r, openPut cs0 DYNAMIC_CACHE req.url r, 1⟩ := by
    intro cs0
    simp [onFetch, hb, hcl, hpage cs0]
  refine ⟨?_, ?_, ?_⟩
  · rw [ho cs]
  · rw [ho cs]
    exact dynMatch_openPut_self cs req.url r
  · rw [ho cs]
    show (onFetch net (openPut cs DYNAMIC_CACHE req.url r) req).store =
      openPut cs DYNAMIC_CACHE req.url r
    rw [ho (openPut cs DYNAMIC_CACHE req.url r)]
    exact openPut_idem cs DYNAMIC_CACHE req.url r

/-- C7 (witness): a page fetch of `/about` over a working network returns
the network response. -/
theorem page_success_matches_network_idempotent_witness :
    (onFetch netInstallOk [] aboutReq).response = some ⟨200, "asset"⟩ :=
  (page_success_matches_network_idempotent netInstallOk [] aboutReq
    ⟨200, "asset"⟩ rfl (by decide) rfl (by decide)).1

/-- C8 (counterexample): store-then-retrieve does NOT round-trip to the
stored value when the STATIC partition also holds the identity. Starting
from a store whose STATIC partition caches the old home document, a
successful network-first fetch stores the fresh home document into DYNAMIC;
the subsequent offline fetch of the same identity returns the shadowing
STATIC entry, not the value just stored. -/
theorem page_offline_static_shadows_dynamic :
    dynMatch csStored "/index.html" = some freshHome ∧
    (onFetch netDown csStored homeReq).response = some ⟨200, "HOME"⟩ ∧
    (onFetch netDown csStored homeReq).response ≠ some freshHome := by
  decide

/-- C8 (amended): for every GET request classified Page where the network
call fails and the cache holds an entry for the exact identity, `onFetch`
returns the first matching cached response in partition creation order,
unchanged, and leaves the store untouched; store-then-retrieve under
failure round-trips to the stored value provided no partition other than
DYNAMIC holds an entry for that identity — an entry in an earlier
partition (such as STATIC) shadows the stored one. -/
theorem page_offline_first_match_roundtrip :
    (∀ (net : Net) (cs : CacheStore) (req : Request) (r : Response),
      req.method = "GET" → classify req = .Page →
      net req.url = none → cachesMatch cs req.url = some r →
      (onFetch net cs req).response = some r ∧
      (onFetch net cs req).store = cs) ∧
    (∀ (cs : CacheStore) (req : Request) (r : Response),
      req.method = "GET" → classify req = .Page → r.ok = true →
      (∀ p ∈ cs, p.1 ≠ DYNAMIC_CACHE → partitionMatch p.2 req.url = none) →
      (onFetch netDown
        (onFetch (fun _ => some r) cs req).store req).response = some r) := by
  constructor
  · intro net cs req r hm hcl hn hmatch
    have hb : (req.method == "GET") = true := by simp [hm]
    simp [onFetch, hb, hcl, handlePageRequest, hn, hmatch]
  · intro cs req r hm hcl hok hmiss
    have hb : (req.method == "GET") = true := by simp [hm]
    have hpage : handlePageRequest (fun _ => some r) cs req =
        ⟨some r, openPut cs DYNAMIC_CACHE req.url r, 1⟩ := by
      unfold handlePageRequest
      simp [hok]
    have hstore : (onFetch (fun _ => some r) cs req).store =
        openPut cs DYNAMIC_CACHE req.url r := by
      simp [onFetch, hb, hcl, hpage]
    rw [hstore]
    have hmatch2 : cachesMatch (openPut cs DYNAMIC_CACHE req.url r) req.url =
        some r := cachesMatch_openPut_self cs req.url r hmiss
    simp [onFetch, hb, hcl, handlePageRequest, hmatch2, netDown]

/-- C8 (witness): both parts at concrete inputs — an offline fetch served
from a DYNAMIC entry, and a store-then-retrieve round-trip from an empty
store. -/
theorem page_offline_first_match_roundtrip_witness :
    (onFetch netDown csAbout aboutReq).response = some cachedAbout ∧
    (onFetch netDown
      (onFetch (fun _ => some cachedAbout) [] aboutReq).store aboutReq).response =
      some cachedAbout :=
  ⟨(page_offline_first_match_roundtrip.1 netDown csAbout aboutReq cachedAbout
      rfl (by decide) rfl (by decide)).1,
   page_offline_first_match_roundtrip.2 [] aboutReq cachedAbout rfl (by decide)
      (by decide) (fun p hp => absurd hp (List.not_mem_nil p))⟩

/-- C9 (counterexample): an offline GET navigation with document
destination to an uncached URL under `/assets/` is classified Asset, not
Page, so it receives the synthetic 404 of the cache-first strategy — not
the cached home document, even though one is cached. -/
theorem document_nav_assets_url_gets_404 :
    pdfNavReq.method = "GET" ∧ pdfNavReq.destination = "document" ∧
    cachesMatch csHome pdfNavReq.url = none ∧
    cachesMatch csHome "/index.html" = some ⟨200, "HOME"⟩ ∧
    (onFetch netDown csHome pdfNavReq).response = some ⟨404, ""⟩ ∧
    (onFetch netDown csHome pdfNavReq).response ≠ some ⟨200, "HOME"⟩ := by
  decide

/-- C9 (amended): for every GET request with document destination that is
classified Page (its URL does not contain `/assets/`), where the network
call fails, no cache entry exists for the exact identity, and a home
document is cached, `onFetch` returns the cached home document as a
generic offline placeholder — masking failed navigations to unmatched
non-asset routes as home-page content. -/
theorem page_offline_document_home_fallback :
    ∀ (net : Net) (cs : CacheStore) (req : Request) (home : Response),
      req.method = "GET" → req.destination = "document" →
      urlIncludesAssets req.url = false →
      net req.url = none → cachesMatch cs req.url = none →
      cachesMatch cs "/index.html" = some home →
      (onFetch net cs req).response = some home := by
  intro net cs req home hm hd ha hn hcm hhome
  have hb : (req.method == "GET") = true := by simp [hm]
  have hi : (req.destination == "image") = false := by simp [hd]
  have hcl : classify req = .Page := by simp [classify, hi, ha]
  have hdb : (req.destination == "document") = true := by simp [hd]
  simp [onFetch, hb, hcl, handlePageRequest, hn, hcm, hdb, hhome]

/-- C9 (witness): an offline document navigation to an uncached non-asset
route returns the cached home document. -/
theorem page_offline_document_home_fallback_witness :
    (onFetch netDown csHome aboutReq).response = some ⟨200, "HOME"⟩ :=
  page_offline_document_home_fallback netDown csHome aboutReq ⟨200, "HOME"⟩
    rfl rfl (by decide) rfl (by decide) (by decide)

/-- C10: for every GET request classified Image or Asset with no cached
entry, a network fetch that resolves with a non-OK response is returned to
the caller unchanged and nothing is cached; the synthetic 404 is produced
only when the network fetch itself rejects. -/
theorem cacheFirst_nonOK_returned_uncached :
    ∀ (net : Net) (cs : CacheStore) (req : Request) (r : Response),
      req.method = "GET" →
      (classify req = .Image ∨ classify req = .Asset) →
      cachesMatch cs req.url = none →
      ((net req.url = some r → r.ok = false →
          onFetch net cs req = ⟨true, some r, cs, 1⟩) ∧
        (net req.url = none →
          onFetch net cs req = ⟨true, some ⟨404, ""⟩, cs, 1⟩)) := by
  intro net cs req r hm hcls hmiss
  have hb : (req.method == "GET") = true := by simp [hm]
  constructor
  · intro hn hok
    rcases hcls with hc | hc <;>
      simp [onFetch, hb, hc, handleImageRequest, handleAssetRequest, hmiss, hn, hok]
  · intro hn
    rcases hcls with hc | hc <;>
      simp [onFetch, hb, hc, handleImageRequest, handleAssetRequest, hmiss, hn]

/-- C10 (witness): an uncached image gets the 500 network response back
unchanged and uncached; with the network down it gets the synthetic 404. -/
theorem cacheFirst_nonOK_returned_uncached_witness :
    onFetch net500 [] imgReq = ⟨true, some ⟨500, "ERR"⟩, [], 1⟩ ∧
    onFetch netDown [] imgReq = ⟨true, some ⟨404, ""⟩, [], 1⟩ :=
  ⟨(cacheFirst_nonOK_returned_uncached net500 [] imgReq ⟨500, "ERR"⟩ rfl
      (Or.inl (by decide)) (by decide)).1 rfl (by decide),
   (cacheFirst_nonOK_returned_uncached netDown [] imgReq ⟨500, "ERR"⟩ rfl
      (Or.inl (by decide)) (by decide)).2 rfl⟩
